import Mathlib

/-!
Verification of the aggregation engine of the Health Payments Backoffice API
(`main.py`, with record shapes from `schemas.py`).

Modelling conventions (shallow embedding):
* A `datetime` is modelled as an integer number of seconds since an epoch.
  Truncating a datetime to midnight (`datetime(now.year, now.month, now.day)`)
  becomes `(t / 86400) * 86400` (floor division, divisor positive), and the
  calendar-date string produced by `strftime('%Y-%m-%d')` is modelled by the
  epoch day number `t / 86400` (the string rendering is injective and
  order-preserving on dates, so date-number equality is date-string equality).
* Python `float` amounts are modelled as exact rationals `ℚ`; Python's
  `round(x, n)` is round-half-to-even at `n` decimal places (`roundTo`).
* The Mongo handle is modelled by `Store`: `unavailable` is `db is None`,
  `ok recs` is a reachable store whose collection holds the list `recs`
  (in natural order), and `err` is a reachable store whose queries raise,
  which makes the surrounding `try` fall into its `except` branch.
* Mongo's `find(filter)` yields the records matching the filter in store
  order; `$gte` on `occurred_at` does not match documents lacking the field.
* `.sort("occurred_at", -1)` is a sort by occurrence time, newest first,
  records without `occurred_at` last; `.limit(n)` with `n > 0` takes `n`.
-/

/-- `status` values, from `schemas.py` (`Literal["pending","completed","failed"]`). -/
inductive Status where
  | pending : Status
  | completed : Status
  | failed : Status
deriving DecidableEq, Repr

/-- `type` values, from `schemas.py` (`Literal["payin","payout"]`). -/
inductive TxnType where
  | payin : TxnType
  | payout : TxnType
deriving DecidableEq, Repr

/-- A stored transaction document (collection `"transaction"`), after
`schemas.py`'s `Transaction` model plus the Mongo `_id`. -/
structure Txn where
  id : String
  amount : ℚ
  currency : String
  status : Status
  type' : TxnType
  partner : Option String
  reference : Option String
  occurred_at : Option ℤ
deriving DecidableEq, Repr

/-- The serialized transaction view (`TransactionOut` in `main.py`). -/
structure TransactionOut where
  id : Option String
  amount : ℚ
  currency : String
  status : String
  type' : String
  partner : Option String
  reference : Option String
  occurred_at : Option ℤ
deriving DecidableEq, Repr

/-- The store as each endpoint observes it: `db is None`, or reachable with
contents `recs` and queries succeeding, or reachable with queries raising. -/
inductive Store where
  | unavailable : Store
  | ok : List Txn → Store
  | err : Store
deriving DecidableEq

/-- Epoch day number of a timestamp: the calendar date rendered by
`strftime('%Y-%m-%d')`. `/` on `ℤ` is floor division for a positive divisor. -/
def dayOf (t : ℤ) : ℤ := t / 86400

/-- `datetime(now.year, now.month, now.day)`: truncation to midnight. -/
def dayStart (t : ℤ) : ℤ := dayOf t * 86400

/-- Round-half-to-even to an integer (the rule of Python's builtin `round`). -/
def rhe (q : ℚ) : ℤ :=
  if q - ⌊q⌋ < 1/2 then ⌊q⌋
  else if 1/2 < q - ⌊q⌋ then ⌊q⌋ + 1
  else if ⌊q⌋ % 2 = 0 then ⌊q⌋ else ⌊q⌋ + 1

/-- Python's `round(q, p)`: round-half-to-even at `p` decimal places. -/
def roundTo (p : ℕ) (q : ℚ) : ℚ := (rhe (q * 10 ^ p) : ℚ) / 10 ^ p

/-- Filter `{"type": "payin", "status": "completed"}`. -/
def payinCompleted (r : Txn) : Bool :=
  decide (r.type' = TxnType.payin ∧ r.status = Status.completed)

/-- Filter `{"type": "payout"}` — no condition on `status`. -/
def payoutAny (r : Txn) : Bool := decide (r.type' = TxnType.payout)

/-- Filter `{"type": "payout", "status": "pending"}`. -/
def payoutPending (r : Txn) : Bool :=
  decide (r.type' = TxnType.payout ∧ r.status = Status.pending)

/-- Filter `{"status": "completed"}`. -/
def statusCompleted (r : Txn) : Bool := decide (r.status = Status.completed)

/-- Filter `{"occurred_at": {"$gte": s}}`; a document without `occurred_at`
does not match `$gte`. -/
def occGe (s : ℤ) (r : Txn) : Bool :=
  match r.occurred_at with
  | some t => decide (s ≤ t)
  | none => false

/-- The `sum_amount` helper of `metrics`: `total = 0.0`, add `amount` over
the matching documents, `round(total, 2)`. -/
def sum_amount (recs : List Txn) (p : Txn → Bool) : ℚ :=
  roundTo 2 ((recs.filter p).foldl (fun total r => total + r.amount) 0)

/-- The payload of `GET /api/metrics`. -/
structure Metrics where
  available_balance : ℚ
  today_count : ℕ
  today_amount : ℚ
  payouts_pending_count : ℕ
  payouts_pending_amount : ℚ
  success_rate : ℚ
deriving DecidableEq, Repr

/-- The successful branch of `metrics` (store reachable, queries succeed). -/
def metricsOf (now : ℤ) (recs : List Txn) : Metrics :=
  let start_day := dayStart now
  let available_balance :=
    sum_amount recs payinCompleted - sum_amount recs payoutAny
  let today_count := (recs.filter (occGe start_day)).length
  let today_amount := sum_amount recs (occGe start_day)
  let pending_payouts_count := (recs.filter payoutPending).length
  let pending_payouts_amount := sum_amount recs payoutPending
  let total_count := if recs.length = 0 then 1 else recs.length
  let success_count := (recs.filter statusCompleted).length
  let success_rate := (success_count : ℚ) / (total_count : ℚ)
  { available_balance := roundTo 2 available_balance
    today_count := today_count
    today_amount := roundTo 2 today_amount
    payouts_pending_count := pending_payouts_count
    payouts_pending_amount := roundTo 2 pending_payouts_amount
    success_rate := roundTo 4 success_rate }

/-- `GET /api/metrics` (`metrics` in `main.py`). -/
def metrics (now : ℤ) : Store → Metrics
  | Store.unavailable =>
      { available_balance := 12845.23
        today_count := 42
        today_amount := 2456.7
        payouts_pending_count := 3
        payouts_pending_amount := 1240.5
        success_rate := 0.94 }
  | Store.ok recs => metricsOf now recs
  | Store.err =>
      { available_balance := 10000.0
        today_count := 20
        today_amount := 1500.0
        payouts_pending_count := 2
        payouts_pending_amount := 800.0
        success_rate := 0.92 }

/-- The partner list used for mock rows. -/
def PARTNERS : List String :=
  ["Pharmacie Centrale", "Clinique St. Michel", "PharmaPlus Lyon",
   "Hôpital Sainte-Anne", "Centre Dentaire Azur"]

/-- One mock row of the `db is None` branch of `list_transactions`. -/
def mockTxn (now : ℤ) (i : ℕ) : TransactionOut :=
  { id := some (toString i)
    amount := 123.45 + i
    currency := "EUR"
    status := ["completed", "pending", "failed"].getD (i % 3) ""
    type' := ["payin", "payout"].getD (i % 2) ""
    partner := some (PARTNERS.getD (i % PARTNERS.length) "")
    reference := some ("INV-" ++ toString (dayOf now) ++ "-" ++ toString i)
    occurred_at := some (now - i * 3600) }

/-- Serialization of a stored document to a `TransactionOut`. -/
def statusStr : Status → String
  | Status.pending => "pending"
  | Status.completed => "completed"
  | Status.failed => "failed"

/-- String form of a transaction type. -/
def typeStr : TxnType → String
  | TxnType.payin => "payin"
  | TxnType.payout => "payout"

/-- Building a `TransactionOut` from a stored document. -/
def toOut (r : Txn) : TransactionOut :=
  { id := some r.id
    amount := r.amount
    currency := r.currency
    status := statusStr r.status
    type' := typeStr r.type'
    partner := r.partner
    reference := r.reference
    occurred_at := r.occurred_at }

/-- The descending `occurred_at` order of `.sort("occurred_at", -1)`:
`a` before `b` when `a`'s timestamp is at least `b`'s, documents without
an `occurred_at` last. -/
def occDesc (a b : Txn) : Prop :=
  match a.occurred_at, b.occurred_at with
  | none, none => True
  | none, some _ => False
  | some _, none => True
  | some x, some y => y ≤ x

instance : DecidableRel occDesc := by
  intro a b
  unfold occDesc
  cases a.occurred_at <;> cases b.occurred_at <;> infer_instance

/-- Mongo's `.limit(n)`: `n = 0` means no limit, otherwise take `n`. -/
def mongoLimit (n : ℕ) (l : List TransactionOut) : List TransactionOut :=
  if n = 0 then l else l.take n

/-- `GET /api/transactions` (`list_transactions` in `main.py`). -/
def list_transactions (limit : ℕ) (now : ℤ) : Store → List TransactionOut
  | Store.unavailable => (List.range limit).map (mockTxn now)
  | Store.ok recs => mongoLimit limit ((List.insertionSort occDesc recs).map toOut)
  | Store.err => []

/-- The seven zero-initialized buckets of `transactions_weekly`, keyed by the
calendar dates of `start + i` days, in insertion order. -/
def initBuckets (start : ℤ) : List (ℤ × ℚ) :=
  (List.range 7).map (fun i : ℕ => (dayOf (start + (i : ℤ) * 86400), 0))

/-- Python `buckets[day] = buckets.get(day, 0.0) + v` on an insertion-ordered
dict: add to an existing key, or append a new key at the end. -/
def addToBucket : List (ℤ × ℚ) → ℤ → ℚ → List (ℤ × ℚ)
  | [], k, v => [(k, v)]
  | (k', v') :: rest, k, v =>
      if k' = k then (k', v' + v) :: rest else (k', v') :: addToBucket rest k v

/-- `GET /api/transactions/weekly` (`transactions_weekly` in `main.py`). -/
def transactions_weekly (now : ℤ) : Store → List (ℤ × ℚ)
  | Store.unavailable =>
      (List.range 7).map
        (fun i : ℕ => (dayOf (now - 518400 + (i : ℤ) * 86400), ((i : ℚ) + 1) * 300.0))
  | Store.err =>
      (List.range 7).map
        (fun i : ℕ => (dayOf (now - 518400 + (i : ℤ) * 86400), ((i : ℚ) + 1) * 250.0))
  | Store.ok recs =>
      let start := now - 518400
      let buckets :=
        (recs.filter (occGe start)).foldl
          (fun bs r => addToBucket bs (dayOf (r.occurred_at.getD now)) r.amount)
          (initBuckets start)
      buckets.map (fun kv => (kv.1, roundTo 2 kv.2))

/-- A concrete stored document builder used for scenario inputs. -/
def mkTxn (amount : ℚ) (st : Status) (ty : TxnType) (occ : Option ℤ) : Txn :=
  { id := "t"
    amount := amount
    currency := "EUR"
    status := st
    type' := ty
    partner := none
    reference := none
    occurred_at := occ }

/-- A completed payin of 33.335 occurring at the epoch. -/
def tx33 : Txn := mkTxn 33.335 Status.completed TxnType.payin (some 0)

/-- A completed payin two calendar days in the future of `now = 0`. -/
def txFuture : Txn := mkTxn 100 Status.completed TxnType.payin (some 172800)

/-- A record on the oldest weekly bucket's calendar date (day 0 for
`now = 561600`, i.e. day 6 at noon) but earlier in the day (01:00) than the
request's time of day (12:00). -/
def txEarly : Txn := mkTxn 50 Status.completed TxnType.payin (some 3600)

/-- Three records of which exactly one is completed. -/
def txTriple : List Txn :=
  [mkTxn 10 Status.completed TxnType.payin (some 0),
   mkTxn 10 Status.pending TxnType.payin (some 0),
   mkTxn 10 Status.failed TxnType.payin (some 0)]

/-- The single record of the spec's first metrics scenario: amount 100,
payin, completed, occurring today at 09:00. -/
def txNine (now : ℤ) : Txn :=
  mkTxn 100 Status.completed TxnType.payin (some (dayStart now + 32400))

/- ### Arithmetic facts about round-half-to-even -/

theorem rhe_intCast (k : ℤ) : rhe ((k : ℤ) : ℚ) = k := by
  unfold rhe
  rw [Int.floor_intCast, sub_self, if_pos (by norm_num)]

theorem roundTo_eq_self {p : ℕ} {q : ℚ} {k : ℤ} (h : q * 10 ^ p = ((k : ℤ) : ℚ)) :
    roundTo p q = q := by
  unfold roundTo
  rw [h, rhe_intCast, ← h, mul_div_assoc, div_self (by positivity), mul_one]

theorem roundTo_mul_pow (p : ℕ) (q : ℚ) :
    roundTo p q * 10 ^ p = ((rhe (q * 10 ^ p) : ℤ) : ℚ) := by
  unfold roundTo
  rw [div_mul_cancel₀]
  positivity

theorem roundTo_idem (p : ℕ) (q : ℚ) : roundTo p (roundTo p q) = roundTo p q :=
  roundTo_eq_self (roundTo_mul_pow p q)

theorem floor_le_rhe (q : ℚ) : ⌊q⌋ ≤ rhe q := by
  unfold rhe
  split_ifs <;> omega

theorem rhe_le_floor_add_one (q : ℚ) : rhe q ≤ ⌊q⌋ + 1 := by
  unfold rhe
  split_ifs <;> omega

theorem rhe_nonneg {q : ℚ} (h : 0 ≤ q) : 0 ≤ rhe q :=
  le_trans (Int.floor_nonneg.mpr h) (floor_le_rhe q)

theorem rhe_le_of_le {q : ℚ} {n : ℤ} (h : q ≤ (n : ℚ)) : rhe q ≤ n := by
  rcases eq_or_lt_of_le h with he | hl
  · rw [he, rhe_intCast]
  · have h1 : ⌊q⌋ < n := Int.floor_lt.mpr hl
    have h2 := rhe_le_floor_add_one q
    omega

theorem roundTo_nonneg {q : ℚ} (p : ℕ) (h : 0 ≤ q) : 0 ≤ roundTo p q := by
  unfold roundTo
  have : (0 : ℤ) ≤ rhe (q * 10 ^ p) := rhe_nonneg (by positivity)
  positivity

theorem roundTo_le_one {q : ℚ} (p : ℕ) (h : q ≤ 1) : roundTo p q ≤ 1 := by
  unfold roundTo
  rw [div_le_one (by positivity)]
  have : rhe (q * 10 ^ p) ≤ (10 : ℤ) ^ p := by
    apply rhe_le_of_le
    push_cast
    calc q * 10 ^ p ≤ 1 * 10 ^ p := by
          apply mul_le_mul_of_nonneg_right h (by positivity)
      _ = 10 ^ p := one_mul _
  calc ((rhe (q * 10 ^ p) : ℤ) : ℚ) ≤ (((10 : ℤ) ^ p : ℤ) : ℚ) := by exact_mod_cast this
    _ = 10 ^ p := by push_cast; ring

/- ### List facts about the aggregation helpers -/

theorem foldl_add_amount (l : List Txn) (a : ℚ) :
    l.foldl (fun total r => total + r.amount) a = a + (l.map Txn.amount).sum := by
  induction l generalizing a with
  | nil => simp
  | cons r l ih => simp [ih, add_assoc]

theorem sum_amount_eq (recs : List Txn) (p : Txn → Bool) :
    sum_amount recs p = roundTo 2 (((recs.filter p).map Txn.amount).sum) := by
  unfold sum_amount
  rw [foldl_add_amount, zero_add]

theorem addToBucket_keys {bs : List (ℤ × ℚ)} {k : ℤ} (v : ℚ)
    (h : k ∈ bs.map Prod.fst) :
    (addToBucket bs k v).map Prod.fst = bs.map Prod.fst := by
  induction bs with
  | nil => simp at h
  | cons b rest ih =>
      obtain ⟨k', v'⟩ := b
      by_cases hk : k' = k
      · simp [addToBucket, hk]
      · simp only [List.map_cons, List.mem_cons] at h
        rcases h with h | h
        · exact absurd h.symm hk
        · simp [addToBucket, hk, ih h]

theorem foldl_addToBucket_keys (g : Txn → ℤ) (l : List Txn) (bs : List (ℤ × ℚ))
    (h : ∀ r ∈ l, g r ∈ bs.map Prod.fst) :
    (l.foldl (fun acc r => addToBucket acc (g r) r.amount) bs).map Prod.fst =
      bs.map Prod.fst := by
  induction l generalizing bs with
  | nil => rfl
  | cons r l ih =>
      have hr : g r ∈ bs.map Prod.fst := h r (List.mem_cons_self r l)
      have hkeys := addToBucket_keys r.amount hr
      simp only [List.foldl_cons]
      rw [ih _ (fun r' hr' => by rw [hkeys]; exact h r' (List.mem_cons_of_mem r hr'))]
      exact hkeys

theorem initBuckets_keys (start : ℤ) :
    (initBuckets start).map Prod.fst =
      (List.range 7).map (fun i : ℕ => dayOf start + (i : ℤ)) := by
  unfold initBuckets
  rw [List.map_map]
  apply List.map_congr_left
  intro i _
  simp only [Function.comp_apply]
  unfold dayOf
  omega

/- ### Claims -/

/-- C10: for a fixed store state, a fixed limit and a fixed clock value, each
of the three aggregation operations (latest transactions, metrics snapshot,
weekly rollup) is deterministic: two runs over equal store states produce
equal outputs, in the fallback branches included. -/
theorem c10_deterministic (limit : ℕ) (now : ℤ) (s₁ s₂ : Store) (h : s₁ = s₂) :
    list_transactions limit now s₁ = list_transactions limit now s₂ ∧
    metrics now s₁ = metrics now s₂ ∧
    transactions_weekly now s₁ = transactions_weekly now s₂ := by
  subst h
  exact ⟨rfl, rfl, rfl⟩

/-- Witness for C10 at limit 5, clock 0, the unavailable store. -/
theorem c10_deterministic_witness :
    list_transactions 5 0 Store.unavailable = list_transactions 5 0 Store.unavailable ∧
    metrics 0 Store.unavailable = metrics 0 Store.unavailable ∧
    transactions_weekly 0 Store.unavailable = transactions_weekly 0 Store.unavailable :=
  c10_deterministic 5 0 Store.unavailable Store.unavailable rfl

/-- C4: for a positive limit, the latest-transactions listing has length
`min limit count` when the store is available and the query succeeds, length
exactly `limit` (synthetic rows) when the store is unavailable, and length 0
when a query raises after the availability check passed. -/
theorem c4_list_lengths (limit : ℕ) (now : ℤ) (recs : List Txn) (h : 0 < limit) :
    (list_transactions limit now (Store.ok recs)).length = min limit recs.length ∧
    (list_transactions limit now Store.unavailable).length = limit ∧
    (list_transactions limit now Store.err).length = 0 := by
  refine ⟨?_, ?_, rfl⟩
  · have hne : limit ≠ 0 := Nat.pos_iff_ne_zero.mp h
    simp [list_transactions, mongoLimit, hne,
      (List.perm_insertionSort occDesc recs).length_eq]
  · simp [list_transactions]

/-- Witness for C4 at limit 5, clock 0, the empty collection. -/
theorem c4_list_lengths_witness :
    (list_transactions 5 0 (Store.ok [])).length = min 5 ([] : List Txn).length ∧
    (list_transactions 5 0 Store.unavailable).length = 5 ∧
    (list_transactions 5 0 Store.err).length = 0 :=
  c4_list_lengths 5 0 [] (by decide)

/-- C5: neither store unavailability nor a query error surfaces as a failure
from metrics or the weekly rollup: each returns a deterministic placeholder
payload, and the two placeholders are distinct per error kind (metrics
constants differ; weekly amounts are the 300-multiples vs the 250-multiples
over the same seven date keys). -/
theorem c5_fallback_payloads (now : ℤ) :
    metrics now Store.unavailable = ⟨12845.23, 42, 2456.7, 3, 1240.5, 0.94⟩ ∧
    metrics now Store.err = ⟨10000.0, 20, 1500.0, 2, 800.0, 0.92⟩ ∧
    metrics now Store.unavailable ≠ metrics now Store.err ∧
    (transactions_weekly now Store.unavailable).map Prod.fst =
      (transactions_weekly now Store.err).map Prod.fst ∧
    (transactions_weekly now Store.unavailable).map Prod.snd =
      [300, 600, 900, 1200, 1500, 1800, 2100] ∧
    (transactions_weekly now Store.err).map Prod.snd =
      [250, 500, 750, 1000, 1250, 1500, 1750] ∧
    transactions_weekly now Store.unavailable ≠ transactions_weekly now Store.err := by
  have hrange : List.range 7 = [0, 1, 2, 3, 4, 5, 6] := rfl
  have hu : (transactions_weekly now Store.unavailable).map Prod.snd =
      [300, 600, 900, 1200, 1500, 1800, 2100] := by
    simp only [transactions_weekly, List.map_map, hrange, List.map_cons, List.map_nil,
      Function.comp_apply]
    norm_num
  have he : (transactions_weekly now Store.err).map Prod.snd =
      [250, 500, 750, 1000, 1250, 1500, 1750] := by
    simp only [transactions_weekly, List.map_map, hrange, List.map_cons, List.map_nil,
      Function.comp_apply]
    norm_num
  refine ⟨rfl, rfl, ?_, ?_, hu, he, ?_⟩
  · intro hcon
    have h1 := congrArg Metrics.available_balance hcon
    norm_num [metrics] at h1
  · simp only [transactions_weekly, List.map_map]
    apply List.map_congr_left
    intro i _
    rfl
  · intro hcon
    rw [hcon, he] at hu
    norm_num at hu

/-- C3 counterexample: at clock 0, a store holding one record whose
`occurred_at` lies two calendar days in the future yields a weekly rollup
with 8 entries, not 7 — the record matches the `occurred_at >= start`
filter, its date key is absent from the 7 prepared buckets, and the
dict-style update appends it as a new key. -/
theorem c3_future_record_cex :
    (transactions_weekly 0 (Store.ok [txFuture])).length = 8 := by rfl

/-- C3 (amended): the weekly rollup has exactly 7 entries whose dates are
the strictly increasing consecutive calendar days `today − 6, …, today`,
even when zero records match — provided no stored record's `occurred_at`
falls on a calendar date after today; a record with a future calendar date
is appended as an extra bucket instead. -/
theorem c3_weekly_seven_buckets (now : ℤ) (recs : List Txn)
    (h : ∀ r ∈ recs, ∀ t : ℤ, r.occurred_at = some t → dayOf t ≤ dayOf now) :
    (transactions_weekly now (Store.ok recs)).length = 7 ∧
    (transactions_weekly now (Store.ok recs)).map Prod.fst =
      (List.range 7).map (fun i : ℕ => dayOf now - 6 + (i : ℤ)) := by
  have hstart : dayOf (now - 518400) = dayOf now - 6 := by
    unfold dayOf
    omega
  have hfst : (transactions_weekly now (Store.ok recs)).map Prod.fst =
      (List.range 7).map (fun i : ℕ => dayOf now - 6 + (i : ℤ)) := by
    show (List.map Prod.fst (List.map _ _)) = _
    rw [List.map_map]
    have hcomp : (Prod.fst ∘ fun kv : ℤ × ℚ => (kv.1, roundTo 2 kv.2)) = Prod.fst := by
      funext kv
      rfl
    rw [hcomp]
    rw [foldl_addToBucket_keys _ _ _ ?_]
    · rw [initBuckets_keys, hstart]
    · intro r hr
      rw [List.mem_filter] at hr
      obtain ⟨hmem, hocc⟩ := hr
      unfold occGe at hocc
      cases hocct : r.occurred_at with
      | none => rw [hocct] at hocc; simp at hocc
      | some t =>
          rw [hocct] at hocc
          have hge : now - 518400 ≤ t := of_decide_eq_true hocc
          have hle : dayOf t ≤ dayOf now := h r hmem t hocct
          have hlo : dayOf (now - 518400) ≤ dayOf t := by
            unfold dayOf
            omega
          rw [initBuckets_keys]
          refine List.mem_map.mpr ⟨(dayOf t - dayOf (now - 518400)).toNat, ?_, ?_⟩
          · rw [List.mem_range]
            omega
          · simp only [Option.getD_some]
            omega
  refine ⟨?_, hfst⟩
  have := congrArg List.length hfst
  simpa using this

/-- Witness for C3's amended statement: clock 0, empty collection. -/
theorem c3_weekly_seven_buckets_witness :
    (transactions_weekly 0 (Store.ok [])).length = 7 ∧
    (transactions_weekly 0 (Store.ok [])).map Prod.fst =
      (List.range 7).map (fun i : ℕ => dayOf 0 - 6 + (i : ℤ)) :=
  c3_weekly_seven_buckets 0 [] (by simp)

/-- C9: the weekly record-selection threshold is the current instant minus
exactly 6×24 hours, time of day included: a record on the oldest bucket's
calendar date whose time of day is earlier than the request's is excluded,
and every bucket — that one included — stays at 0. -/
theorem c9_weekly_threshold_time_of_day (now t : ℤ)
    (_hday : dayOf t = dayOf now - 6) (hlt : t < now - 518400) :
    transactions_weekly now (Store.ok [mkTxn 50 Status.completed TxnType.payin (some t)]) =
      (List.range 7).map (fun i : ℕ => (dayOf now - 6 + (i : ℤ), (0 : ℚ))) := by
  have hfilter : occGe (now - 518400) (mkTxn 50 Status.completed TxnType.payin (some t)) =
      false := by
    unfold occGe mkTxn
    simp only
    rw [decide_eq_false_iff_not]
    omega
  have hnil : List.filter (occGe (now - 518400))
      [mkTxn 50 Status.completed TxnType.payin (some t)] = [] := by
    simp [hfilter]
  show (List.map _ (List.foldl _ _ (List.filter _ _))) = _
  rw [hnil]
  simp only [List.foldl_nil]
  unfold initBuckets
  rw [List.map_map]
  apply List.map_congr_left
  intro i _
  simp only [Function.comp_apply, Prod.mk.injEq]
  constructor
  · unfold dayOf
    omega
  · exact @roundTo_eq_self 2 0 0 (by norm_num)

/-- Witness for C9: request at day 6, 12:00; record at day 0, 01:00. -/
theorem c9_weekly_threshold_time_of_day_witness :
    transactions_weekly 561600 (Store.ok [mkTxn 50 Status.completed TxnType.payin (some 3600)]) =
      (List.range 7).map (fun i : ℕ => (dayOf 561600 - 6 + (i : ℤ), (0 : ℚ))) :=
  c9_weekly_threshold_time_of_day 561600 3600 (by decide) (by decide)

/-- C1 counterexample: one completed payin of 33.335 (a three-decimal
amount, as in the spec's own rounding scenario) gives
`available_balance = 33.34`, while the exact payin-minus-payout sum is
33.335 — so the balance is not the exact difference. -/
theorem c1_rounding_cex :
    (metrics 0 (Store.ok [tx33])).available_balance = 33.34 ∧
    (([tx33].filter payinCompleted).map Txn.amount).sum -
      (([tx33].filter payoutAny).map Txn.amount).sum = 33.335 ∧
    (33.34 : ℚ) ≠ 33.335 := by
  have h1 : [tx33].filter payinCompleted = [tx33] := rfl
  have h2 : [tx33].filter payoutAny = ([] : List Txn) := rfl
  refine ⟨?_, ?_, by norm_num⟩
  · simp only [metrics, metricsOf, sum_amount, h1, h2, List.foldl_cons, List.foldl_nil]
    norm_num [tx33, mkTxn, roundTo, rhe]
  · rw [h1, h2]
    norm_num [tx33, mkTxn]

/-- C1 (amended): `available_balance` equals the 2-decimal rounding of
(2-decimal-rounded sum over `{type=payin, status=completed}`) minus
(2-decimal-rounded sum over all `{type=payout}` records, unfiltered by
status); it equals the exact difference only up to this rounding. -/
theorem c1_available_balance (now : ℤ) (recs : List Txn) :
    (metrics now (Store.ok recs)).available_balance =
      roundTo 2 (roundTo 2 ((recs.filter payinCompleted).map Txn.amount).sum -
        roundTo 2 ((recs.filter payoutAny).map Txn.amount).sum) := by
  simp only [metrics, metricsOf, sum_amount_eq]

/-- C2 counterexample: three records of which one is completed give
`success_rate = 0.3333`, the 4-decimal rounding of 1/3, not the exact
ratio 1/3. -/
theorem c2_success_rate_cex :
    (metrics 0 (Store.ok txTriple)).success_rate = 3333 / 10000 ∧
    ((txTriple.filter statusCompleted).length : ℚ) / ((max txTriple.length 1 : ℕ) : ℚ) =
      1 / 3 ∧
    (3333 / 10000 : ℚ) ≠ 1 / 3 := by
  have h1 : txTriple.filter statusCompleted =
      [mkTxn 10 Status.completed TxnType.payin (some 0)] := rfl
  have h2 : txTriple.length = 3 := rfl
  refine ⟨?_, ?_, by norm_num⟩
  · simp only [metrics, metricsOf, h1, h2, List.length_cons, List.length_nil]
    norm_num [roundTo, rhe]
  · rw [h1, h2]
    norm_num

/-- C2 (amended): `success_rate` equals the 4-decimal rounding of
(count of completed records) / max(count of all records, 1); it always lies
in [0, 1], and for the empty store it equals 0 rather than raising a
division error. -/
theorem c2_success_rate (now : ℤ) (recs : List Txn) :
    (metrics now (Store.ok recs)).success_rate =
      roundTo 4 (((recs.filter statusCompleted).length : ℚ) /
        ((max recs.length 1 : ℕ) : ℚ)) ∧
    0 ≤ (metrics now (Store.ok recs)).success_rate ∧
    (metrics now (Store.ok recs)).success_rate ≤ 1 ∧
    (metrics now (Store.ok [])).success_rate = 0 := by
  have hmax : (if recs.length = 0 then 1 else recs.length) = max recs.length 1 := by
    by_cases h0 : recs.length = 0
    · simp [h0]
    · rw [if_neg h0]
      omega
  have hform : (metrics now (Store.ok recs)).success_rate =
      roundTo 4 (((recs.filter statusCompleted).length : ℚ) /
        ((max recs.length 1 : ℕ) : ℚ)) := by
    simp only [metrics, metricsOf, hmax]
  have hc : (recs.filter statusCompleted).length ≤ recs.length :=
    List.length_filter_le _ _
  have hx0 : (0 : ℚ) ≤ ((recs.filter statusCompleted).length : ℚ) /
      ((max recs.length 1 : ℕ) : ℚ) := by positivity
  have hx1 : ((recs.filter statusCompleted).length : ℚ) /
      ((max recs.length 1 : ℕ) : ℚ) ≤ 1 := by
    rw [div_le_one (by positivity)]
    exact_mod_cast le_trans hc (Nat.le_max_left _ _)
  refine ⟨hform, ?_, ?_, ?_⟩
  · rw [hform]
    exact roundTo_nonneg 4 hx0
  · rw [hform]
    exact roundTo_le_one 4 hx1
  · norm_num [metrics, metricsOf, roundTo, rhe]

/-- C6 counterexample: one record of amount 33.335 occurring today gives
`today.count = 1` but `today.amount = 33.34`, not the exact sum 33.335. -/
theorem c6_today_cex :
    (metrics 43200 (Store.ok [tx33])).today_count = 1 ∧
    (metrics 43200 (Store.ok [tx33])).today_amount = 33.34 ∧
    (([tx33].filter (occGe (dayStart 43200))).map Txn.amount).sum = 33.335 ∧
    (33.34 : ℚ) ≠ 33.335 := by
  have h1 : [tx33].filter (occGe (dayStart 43200)) = [tx33] := rfl
  refine ⟨?_, ?_, ?_, by norm_num⟩
  · simp only [metrics, metricsOf, h1, List.length_cons, List.length_nil]
  · simp only [metrics, metricsOf, sum_amount, h1, List.foldl_cons, List.foldl_nil]
    norm_num [tx33, mkTxn, roundTo, rhe]
  · rw [h1]
    norm_num [tx33, mkTxn]

/-- C6 (amended): `today.count` is exactly the number of records with
`occurred_at >= start of the current day`, and `today.amount` is the
2-decimal rounding of the (2-decimal-rounded) sum of their amounts, with
every transaction included regardless of type or status — payins and
payouts both contribute positively. -/
theorem c6_today_aggregates (now : ℤ) (recs : List Txn) :
    (metrics now (Store.ok recs)).today_count =
      (recs.filter (occGe (dayStart now))).length ∧
    (metrics now (Store.ok recs)).today_amount =
      roundTo 2 (roundTo 2 ((recs.filter (occGe (dayStart now))).map Txn.amount).sum) := by
  constructor <;> simp only [metrics, metricsOf, sum_amount_eq]

/-- C7: a store whose only record is `{amount: 100, type: payin,
status: completed, occurred_at: today 09:00}` yields
`available_balance = 100.00`, `today = {count: 1, amount: 100.00}`,
`payouts_pending = {count: 0, amount: 0.00}` and `success_rate = 1.0`,
whatever the current time of day. -/
theorem c7_single_payin_scenario (now : ℤ) :
    metrics now (Store.ok [txNine now]) = ⟨100, 1, 100, 0, 0, 1⟩ := by
  have hocc : occGe (dayStart now) (txNine now) = true := by
    simp only [occGe, txNine, mkTxn, decide_eq_true_eq]
    omega
  have h1 : [txNine now].filter payinCompleted = [txNine now] := rfl
  have h2 : [txNine now].filter payoutAny = ([] : List Txn) := rfl
  have h3 : [txNine now].filter payoutPending = ([] : List Txn) := rfl
  have h4 : [txNine now].filter statusCompleted = [txNine now] := rfl
  have h5 : [txNine now].filter (occGe (dayStart now)) = [txNine now] := by
    simp [List.filter_cons, hocc]
  simp only [metrics, metricsOf, sum_amount, h1, h2, h3, h4, h5, List.foldl_cons,
    List.foldl_nil, List.length_cons, List.length_nil]
  norm_num [txNine, mkTxn, roundTo, rhe, Metrics.mk.injEq]

/-- C8: every monetary output (available balance, today amount, pending
payout amount, each weekly bucket amount) is already rounded to 2 decimal
places and `success_rate` to 4 decimal places, under the one rounding rule
`roundTo` (round-half-to-even) in every store state, fallbacks included. -/
theorem c8_rounding_consistent (now : ℤ) (s : Store) :
    roundTo 2 (metrics now s).available_balance = (metrics now s).available_balance ∧
    roundTo 2 (metrics now s).today_amount = (metrics now s).today_amount ∧
    roundTo 2 (metrics now s).payouts_pending_amount =
      (metrics now s).payouts_pending_amount ∧
    roundTo 4 (metrics now s).success_rate = (metrics now s).success_rate ∧
    (transactions_weekly now s).map (fun e => (e.1, roundTo 2 e.2)) =
      transactions_weekly now s := by
  cases s with
  | unavailable =>
      refine ⟨?_, ?_, ?_, ?_, ?_⟩
      · norm_num [metrics, roundTo, rhe]
      · norm_num [metrics, roundTo, rhe]
      · norm_num [metrics, roundTo, rhe]
      · norm_num [metrics, roundTo, rhe]
      · simp only [transactions_weekly, List.map_map]
        apply List.map_congr_left
        intro i _
        simp only [Function.comp_apply, Prod.mk.injEq, true_and]
        exact @roundTo_eq_self 2 _ (30000 * ((i : ℤ) + 1)) (by push_cast; ring)
  | err =>
      refine ⟨?_, ?_, ?_, ?_, ?_⟩
      · norm_num [metrics, roundTo, rhe]
      · norm_num [metrics, roundTo, rhe]
      · norm_num [metrics, roundTo, rhe]
      · norm_num [metrics, roundTo, rhe]
      · simp only [transactions_weekly, List.map_map]
        apply List.map_congr_left
        intro i _
        simp only [Function.comp_apply, Prod.mk.injEq, true_and]
        exact @roundTo_eq_self 2 _ (25000 * ((i : ℤ) + 1)) (by push_cast; ring)
  | ok recs =>
      refine ⟨?_, ?_, ?_, ?_, ?_⟩
      · simp only [metrics, metricsOf]
        exact roundTo_idem 2 _
      · simp only [metrics, metricsOf]
        exact roundTo_idem 2 _
      · simp only [metrics, metricsOf]
        exact roundTo_idem 2 _
      · simp only [metrics, metricsOf]
        exact roundTo_idem 4 _
      · simp only [transactions_weekly, List.map_map]
        apply List.map_congr_left
        intro kv _
        simp only [Function.comp_apply, Prod.mk.injEq, true_and]
        exact roundTo_idem 2 _
